import Mathlib

/-!
Verification of the Echotales asset-preparation scripts
(`extract_covers.py` and `generate_catalog.py`) via a shallow embedding.

Python strings are modelled as Lean `String`; bytes as `List Nat`;
fallible e-book parsing as an inductive with an explicit failure case.
Single-character `str.replace` calls are modelled character-wise, which is
exact for one-character patterns.  Python's process-randomized string
`hash` is modelled as an explicit function parameter (one per process),
following the design notes of the scripts.
-/

/-- Boolean test: does the char list `n` occur as a prefix of `l`? -/
def startsWithCh : List Char → List Char → Bool
  | _, [] => true
  | [], _ :: _ => false
  | h :: t, c :: cs => if h = c then startsWithCh t cs else false

/-- Boolean test: does the char list `n` occur as a contiguous sublist of `l`?
Models Python's `in` operator on strings. -/
def occursCh : List Char → List Char → Bool
  | [], n => n.isEmpty
  | h :: t, n => startsWithCh (h :: t) n || occursCh t n

/-- Python `needle in hay` for strings. -/
def strContains (hay needle : String) : Bool :=
  occursCh hay.data needle.data

/-- Python `str.lower()` (ASCII, as used by the scripts). -/
def pyLower (s : String) : String :=
  ⟨s.data.map Char.toLower⟩

/-- Character-wise replacement: each occurrence of `c` becomes the char list `r`.
Exact model of Python `str.replace(old, new)` when `old` is one character. -/
def replaceCh (c : Char) (r : List Char) : List Char → List Char
  | [] => []
  | ch :: rest => (if ch = c then r else [ch]) ++ replaceCh c r rest

/-- Python `s.replace(c, r)` for a single-character pattern `c`. -/
def pyReplaceChar (s : String) (c : Char) (r : String) : String :=
  ⟨replaceCh c r.data s.data⟩

/-- Helper for `pyTitle`: the Bool records whether the previous char was alphabetic. -/
def pyTitleAux : Bool → List Char → List Char
  | _, [] => []
  | prevAlpha, ch :: rest =>
    (if ch.isAlpha then (if prevAlpha then ch.toLower else ch.toUpper) else ch)
      :: pyTitleAux ch.isAlpha rest

/-- Python `str.title()`: uppercase an alphabetic char whenever the previous
char is not alphabetic; lowercase it otherwise. -/
def pyTitle (s : String) : String :=
  ⟨pyTitleAux false s.data⟩

/-- Python `" ".join(tags)`. -/
def joinSpace (tags : List String) : String :=
  String.intercalate " " tags

/-- Python `any(word in s for word in words)`. -/
def containsAny (s : String) (words : List String) : Bool :=
  words.any (fun w => strContains s w)

/-- Keyword table of `guess_genre`, first rule. -/
def mysteryWords : List String := ["mystery", "detective", "murder", "crime"]

/-- Keyword table of `guess_genre`, second rule. -/
def fantasyWords : List String := ["fantasy", "wizard", "magic", "dragon"]

/-- Keyword table of `guess_genre`, third rule. -/
def romanceWords : List String := ["romance", "love", "heart"]

/-- Keyword table of `guess_genre`, fourth rule. -/
def horrorWords : List String := ["horror", "terror", "vampire", "zombie"]

/-- Keyword table of `guess_genre`, fifth rule. -/
def scienceWords : List String := ["science", "space", "robot", "future"]

/-- `generate_catalog.guess_genre`: ordered keyword heuristic.  Note the sixth
rule checks "children" only in the joined tag text and "kid" only in the
lower-cased title. -/
def guess_genre (title author : String) (tags : List String) : String :=
  let tl := pyLower title
  let al := if author.isEmpty then "" else pyLower author
  if containsAny tl mysteryWords then "Mystery"
  else if containsAny tl fantasyWords then "Fantasy"
  else if containsAny tl romanceWords then "Romance"
  else if containsAny tl horrorWords then "Horror"
  else if containsAny tl scienceWords then "Science Fiction"
  else if strContains (pyLower (joinSpace tags)) "children" || strContains tl "kid" then
    "Children's Literature"
  else if strContains al "dickens" || strContains al "austen" then "Classic Literature"
  else "Fiction"

/-- `generate_catalog.guess_age_rating`: ordered keyword heuristic. -/
def guess_age_rating (title genre : String) (tags : List String) : String :=
  let tl := pyLower title
  let gl := pyLower genre
  let tagsl := pyLower (joinSpace tags)
  if containsAny tl ["children", "kid", "little", "pooh", "curious george"] then "Children"
  else if strContains tagsl "children" || strContains tagsl "picture book" then "Children"
  else if containsAny tl ["hardy boys", "nancy drew", "young"] then "Young Adult"
  else if strContains tagsl "young adult" || strContains tagsl "ya" then "Young Adult"
  else if gl = "horror" || gl = "gothic" then "Young Adult"
  else "Adult"

/-- Propositional form of substring containment: `sub` occurs contiguously in `s`. -/
def ContainsSub (s sub : String) : Prop :=
  ∃ p q : List Char, s.data = p ++ sub.data ++ q

/-- Propositional form of `containsAny`: some word of `ws` occurs in `s`. -/
def HasAnyWord (s : String) (ws : List String) : Prop :=
  ∃ w ∈ ws, ContainsSub s w

theorem startsWithCh_iff (n : List Char) : ∀ l : List Char,
    startsWithCh l n = true ↔ ∃ q, l = n ++ q := by
  induction n with
  | nil => intro l; simp [startsWithCh]
  | cons c cs ih =>
    intro l
    cases l with
    | nil => simp [startsWithCh]
    | cons h t =>
      by_cases hc : h = c
      · subst hc
        simp [startsWithCh, ih]
      · simp only [startsWithCh, if_neg hc, List.cons_append]
        constructor
        · intro hfalse; cases hfalse
        · rintro ⟨q, hq⟩
          exact absurd (List.head_eq_of_cons_eq hq) hc

theorem occursCh_iff (n : List Char) : ∀ l : List Char,
    occursCh l n = true ↔ ∃ p q, l = p ++ n ++ q := by
  intro l
  induction l with
  | nil =>
    simp only [occursCh, List.isEmpty_iff]
    constructor
    · intro h; exact ⟨[], [], by simp [h]⟩
    · rintro ⟨p, q, hpq⟩
      rcases List.append_eq_nil.mp (List.append_eq_nil.mp hpq.symm).1 with ⟨_, h2⟩
      exact h2
  | cons h t ih =>
    simp only [occursCh, Bool.or_eq_true, startsWithCh_iff, ih]
    constructor
    · rintro (⟨q, hq⟩ | ⟨p, q, hpq⟩)
      · exact ⟨[], q, by simpa using hq⟩
      · exact ⟨h :: p, q, by simp [hpq]⟩
    · rintro ⟨p, q, hpq⟩
      cases p with
      | nil => exact Or.inl ⟨q, by simpa using hpq⟩
      | cons p0 ps =>
        right
        refine ⟨ps, q, ?_⟩
        simpa using (List.tail_eq_of_cons_eq hpq)

theorem strContains_iff (s sub : String) :
    strContains s sub = true ↔ ContainsSub s sub := by
  exact occursCh_iff sub.data s.data

theorem containsAny_iff (s : String) (ws : List String) :
    containsAny s ws = true ↔ HasAnyWord s ws := by
  simp only [containsAny, List.any_eq_true, HasAnyWord, strContains_iff]

/-- DC metadata of an e-book as read by `ebooklib`: `none` means the metadata
list for that field was empty; `some ""` is a present-but-empty value. -/
structure Meta where
  title : Option String
  author : Option String
  language : Option String
  description : Option String
deriving DecidableEq

/-- Result of `epub.read_epub` in `generate_catalog.py`: either the parse
raises (caught by the script) or it yields DC metadata. -/
inductive ParseResult where
  | failure
  | ok (m : Meta)
deriving DecidableEq

/-- Python `x or default` for an optional string: `None` and `""` are falsy. -/
def orFalsy (o : Option String) (d : String) : String :=
  match o with
  | some s => if s = "" then d else s
  | none => d

/-- `generate_catalog.extract_epub_metadata`: on parse failure the title is
derived from the filename stem (hyphens and underscores to spaces, title-cased)
and the other fields stay `None`.  `ebooklib` is assumed importable, as in a
normal run of the script. -/
def extract_epub_metadata (stem : String) (r : ParseResult) : Meta :=
  match r with
  | .failure =>
    { title := some (pyTitle (pyReplaceChar (pyReplaceChar stem '-' " ") '_' " ")),
      author := none, language := none, description := none }
  | .ok m => m

/-- A row of the generated catalog's `books` list (`generate_book_entry`). -/
structure BookEntry where
  id : String
  title : String
  author : String
  age : String
  genre : String
  tags : List String
  description : String
  storageUrl : String
  coverImageUrl : Option String
  fileSizeBytes : Nat
  isFeatured : Bool
deriving DecidableEq

/-- `generate_catalog.generate_book_entry`.  `coverExists` models the check
that the covers directory exists and contains `<book-id>.png`; `fileSize` is
the on-disk size of the EPUB.  Note the title fallback here replaces only
hyphens (not underscores), unlike the fallback inside
`extract_epub_metadata`. -/
def generate_book_entry (stem : String) (r : ParseResult) (fileSize : Nat)
    (firebasePath : String) (coverExists : Bool) : BookEntry :=
  let metadata := extract_epub_metadata stem r
  let book_id := pyLower stem
  let tags : List String := ["Classic"]
  let title := orFalsy metadata.title (pyTitle (pyReplaceChar stem '-' " "))
  let author := orFalsy metadata.author "Unknown"
  let genre := guess_genre title author tags
  let age := guess_age_rating title genre tags
  { id := book_id
    title := title
    author := author
    age := age
    genre := genre
    tags := tags
    description := orFalsy metadata.description
      ("A " ++ pyLower genre ++ " book by " ++ author ++ ".")
    storageUrl := firebasePath ++ "/" ++ stem ++ ".epub"
    coverImageUrl := if coverExists then some ("BookCovers/" ++ book_id ++ ".png") else none
    fileSizeBytes := fileSize
    isFeatured := false }

/-- A row of the generated catalog's `collections` list. -/
structure Collection where
  id : String
  name : String
  description : String
  sortOrder : Nat
  coverImageUrl : Option String
  bookIds : List String
deriving DecidableEq

/-- Association-list lookup; models Python dict access for distinct keys. -/
def lookupG {α : Type} : List (String × α) → String → Option α
  | [], _ => none
  | (k, v) :: rest, q => if k = q then some v else lookupG rest q

/-- One step of the grouping loops of `create_collections`:
`genres.setdefault(k, []).append(v)` on an insertion-ordered dict. -/
def addId (gs : List (String × List String)) (k v : String) : List (String × List String) :=
  match gs with
  | [] => [(k, [v])]
  | (k', vs) :: rest =>
    if k' = k then (k', vs ++ [v]) :: rest else (k', vs) :: addId rest k v

/-- The grouping loops of `create_collections`: bucket the ids of `books` by
`key`, preserving first-seen key order and per-key book order. -/
def groupIds (key : BookEntry → String) (books : List BookEntry)
    (init : List (String × List String)) : List (String × List String) :=
  books.foldl (fun gs b => addId gs (key b) b.id) init

/-- The ids of the books of `books` whose `key` is `k`, in list order. -/
def idsOf (key : BookEntry → String) (k : String) (books : List BookEntry) : List String :=
  (books.filter (fun b => key b = k)).map BookEntry.id

/-- Insertion step for sorting grouped pairs by key (Python `sorted` on
dict items; keys are distinct so only the key matters). -/
def insertPair (x : String × List String) :
    List (String × List String) → List (String × List String)
  | [] => [x]
  | y :: rest => if x.1 ≤ y.1 then x :: y :: rest else y :: insertPair x rest

/-- `sorted(genres.items())` modelled as insertion sort by key. -/
def sortPairs (l : List (String × List String)) : List (String × List String) :=
  l.foldr insertPair []

/-- The age-bucket collection built inside `create_collections`. -/
def mkAgeCol (a : String) (so : Nat) (ids : List String) : Collection :=
  { id := pyReplaceChar (pyLower a) ' ' "-"
    name := a ++ " Books"
    description := "Books suitable for " ++ pyLower a ++ " readers"
    sortOrder := so
    coverImageUrl := none
    bookIds := ids }

/-- The genre-bucket collection built inside `create_collections`. -/
def mkGenreCol (g : String) (so : Nat) (ids : List String) : Collection :=
  { id := pyReplaceChar (pyReplaceChar (pyLower g) ' ' "-") (Char.ofNat 39) ""
    name := g
    description := g ++ " books from our collection"
    sortOrder := so
    coverImageUrl := none
    bookIds := ids }

/-- The "All Books" collection built first by `create_collections`. -/
def allBooksCollection (books : List BookEntry) : Collection :=
  { id := "all"
    name := "All Books"
    description := "Complete library collection"
    sortOrder := 0
    coverImageUrl := none
    bookIds := books.map BookEntry.id }

/-- The fixed iteration order of the age loop in `create_collections`. -/
def ageOrder : List String := ["Children", "Young Adult", "Adult"]

/-- The age loop of `create_collections`: emit one collection per listed age
that has a non-empty bucket, threading the running sort order. -/
def buildAgeCols (ages : List (String × List String)) :
    List String → Nat → List Collection × Nat
  | [], so => ([], so)
  | a :: rest, so =>
    match lookupG ages a with
    | some ids =>
      if ids.isEmpty then buildAgeCols ages rest so
      else
        let r := buildAgeCols ages rest (so + 1)
        (mkAgeCol a so ids :: r.1, r.2)
    | none => buildAgeCols ages rest so

/-- The genre loop of `create_collections`: emit one collection per sorted
genre bucket with at least two members, threading the running sort order. -/
def buildGenreCols : List (String × List String) → Nat → List Collection × Nat
  | [], so => ([], so)
  | (g, ids) :: rest, so =>
    if 2 ≤ ids.length then
      let r := buildGenreCols rest (so + 1)
      (mkGenreCol g so ids :: r.1, r.2)
    else buildGenreCols rest so

/-- `generate_catalog.create_collections`. -/
def create_collections (books : List BookEntry) : List Collection :=
  let genres := groupIds (fun b => b.genre) books []
  let ages := groupIds (fun b => b.age) books []
  let ageRes := buildAgeCols ages ageOrder 1
  let genreRes := buildGenreCols (sortPairs genres) ageRes.2
  allBooksCollection books :: ageRes.1 ++ genreRes.1

/-- The slug operation named by the specification: display name lower-cased,
spaces replaced by hyphens, apostrophes stripped. -/
def specSlug (s : String) : String :=
  pyReplaceChar (pyReplaceChar (pyLower s) ' ' "-") (Char.ofNat 39) ""

/-- Structural marker of a genre-bucket collection for genre `G`, via the
name and description format used only by the genre loop. -/
def isGenreCollection (G : String) (c : Collection) : Prop :=
  c.name = G ∧ c.description = G ++ " books from our collection"

/-- `ebooklib` item kinds relevant to `extract_cover_from_epub`:
`ITEM_COVER`, `ITEM_IMAGE`, anything else. -/
inductive ItemType where
  | cover
  | image
  | other
deriving DecidableEq

/-- An item of an EPUB container as exposed by `ebooklib`. -/
structure EpubItem where
  typ : ItemType
  itemId : String
  name : String
  content : List Nat
deriving DecidableEq

/-- A successfully parsed EPUB as used by `extract_covers.py`: its items in
`get_items()` order, the `content` attribute of the first OPF `cover`
metadata entry (if any such entry exists), and DC title/creator metadata. -/
structure EpubBook where
  items : List EpubItem
  coverMeta : Option String
  dcTitle : Option String
  dcCreator : Option String
deriving DecidableEq

/-- An EPUB file on disk: either `epub.read_epub` raises on it, or it parses. -/
inductive EpubFile where
  | corrupt
  | ok (book : EpubBook)
deriving DecidableEq

/-- Python truthiness of the `cover_image` variable: `None` and `b""` are falsy. -/
def truthy : Option (List Nat) → Bool
  | some l => !l.isEmpty
  | none => false

/-- The `cover_names` list of `extract_cover_from_epub`. -/
def coverNames : List String :=
  ["cover.jpg", "cover.jpeg", "cover.png", "cover.gif",
   "Cover.jpg", "Cover.png", "COVER.JPG", "COVER.PNG"]

/-- The per-item name test of method 3: a common cover filename occurs in the
item name, or "cover" occurs in the lower-cased name. -/
def coverNameHit (n : String) : Bool :=
  coverNames.any (fun cn => strContains n cn) || strContains (pyLower n) "cover"

/-- First item of type `ITEM_COVER` (method 1's loop). -/
def findCoverItem (b : EpubBook) : Option EpubItem :=
  b.items.find? (fun it => it.typ = ItemType.cover)

/-- First item whose id equals `cid` (method 2's loop). -/
def findIdItem (b : EpubBook) (cid : String) : Option EpubItem :=
  b.items.find? (fun it => it.itemId = cid)

/-- First image item passing the cover-name test (method 3's loop). -/
def findNamedCover (b : EpubBook) : Option EpubItem :=
  b.items.find? (fun it => decide (it.typ = ItemType.image) && coverNameHit it.name)

/-- First image item of any kind (method 4's loop). -/
def findFirstImage (b : EpubBook) : Option EpubItem :=
  b.items.find? (fun it => it.typ = ItemType.image)

/-- Method 1 viewed as a standalone lookup: the explicit cover item's content. -/
def coverMethod1 (b : EpubBook) : Option (List Nat) :=
  (findCoverItem b).map EpubItem.content

/-- Method 2 viewed as a standalone lookup: the content of the item referenced
by the OPF cover metadata. -/
def coverMethod2 (b : EpubBook) : Option (List Nat) :=
  match b.coverMeta with
  | some cid => (findIdItem b cid).map EpubItem.content
  | none => none

/-- Method 3 viewed as a standalone lookup: the content of the first image
item with a cover-like name. -/
def coverMethod3 (b : EpubBook) : Option (List Nat) :=
  (findNamedCover b).map EpubItem.content

/-- Method 4 viewed as a standalone lookup: the content of the first image. -/
def coverMethod4 (b : EpubBook) : Option (List Nat) :=
  (findFirstImage b).map EpubItem.content

/-- The `cover_image` variable after method 2's loop: the referenced item's
content when the OPF cover metadata names an existing item, otherwise the
value left over from method 1. -/
def coverVar2 (b : EpubBook) : Option (List Nat) :=
  match b.coverMeta with
  | some cid =>
    match findIdItem b cid with
    | some it => some it.content
    | none => coverMethod1 b
  | none => coverMethod1 b

/-- The `cover_image` variable after method 3's loop. -/
def coverVar3 (b : EpubBook) : Option (List Nat) :=
  match findNamedCover b with
  | some it => some it.content
  | none => coverVar2 b

/-- The `cover_image` variable after method 4's loop (the returned value when
no earlier check returned). -/
def coverVar4 (b : EpubBook) : Option (List Nat) :=
  match findFirstImage b with
  | some it => some it.content
  | none => coverVar3 b

/-- `extract_covers.extract_cover_from_epub` on a parsed book: the body of the
`try` block, with the states of the `cover_image` variable named by
`coverVar2`..`coverVar4` (a falsy value from an earlier method survives into
later ones, exactly as in the code). -/
def extract_cover_from_epub (b : EpubBook) : Option (List Nat) :=
  if truthy (coverMethod1 b) then coverMethod1 b
  else if truthy (coverVar2 b) then coverVar2 b
  else if truthy (coverVar3 b) then coverVar3 b
  else coverVar4 b

/-- `extract_cover_from_epub` on a file: a raising parse is caught and
yields `None`. -/
def extract_cover (f : EpubFile) : Option (List Nat) :=
  match f with
  | .corrupt => none
  | .ok b => extract_cover_from_epub b

/-- An in-memory image: dimensions plus rows of RGB pixels.  Byte-level PNG
encoding is abstracted by `encodePng`. -/
structure Img where
  width : Nat
  height : Nat
  pixels : List (List (Nat × Nat × Nat))
deriving DecidableEq

/-- The fixed six-entry gradient palette of `create_placeholder_cover`. -/
def placeholderColors : List ((Nat × Nat × Nat) × (Nat × Nat × Nat)) :=
  [((139, 92, 246), (124, 58, 237)),
   ((236, 72, 153), (219, 39, 119)),
   ((16, 185, 129), (5, 150, 105)),
   ((245, 158, 11), (217, 119, 6)),
   ((59, 130, 246), (37, 99, 235)),
   ((239, 68, 68), (220, 38, 38))]

/-- Modelled from the spec: Python's builtin string `hash` is process-specific
(its seed is randomized per interpreter run), so it is taken as an explicit
function parameter `pyHash`; one value of the parameter corresponds to one
process.  `colors[abs(hash(book_id)) % len(colors)]`. -/
def colorPairOf (pyHash : String → Int) (book_id : String) :
    (Nat × Nat × Nat) × (Nat × Nat × Nat) :=
  placeholderColors.get
    ⟨(pyHash book_id).natAbs % placeholderColors.length,
     Nat.mod_lt _ (by decide)⟩

/-- One channel of the gradient:
`int(c0 + (c1 - c0) * y / height)`, with the float arithmetic modelled by
integer arithmetic (pixel values are not inspected by any claim). -/
def lerpChannel (a b y h : Nat) : Nat :=
  ((a : Int) + ((b : Int) - (a : Int)) * (y : Int) / (h : Int)).toNat

/-- One horizontal line of the gradient fill. -/
def gradientRow (cp : (Nat × Nat × Nat) × (Nat × Nat × Nat)) (y h w : Nat) :
    List (Nat × Nat × Nat) :=
  List.replicate w
    (lerpChannel cp.1.1 cp.2.1 y h,
     lerpChannel cp.1.2.1 cp.2.2.1 y h,
     lerpChannel cp.1.2.2 cp.2.2.2 y h)

/-- `extract_covers.create_placeholder_cover`.  `drawFails` models any raise
inside the drawing `try` block (font loading aside, which has its own
fallback): on failure the except branch returns a flat rectangle of the target
size, color (100, 100, 150).  The centered text overlay is not modelled; it
alters neither the dimensions nor non-emptiness of the result. -/
def create_placeholder_cover (pyHash : String → Int) (drawFails : Bool)
    (book_id title author : String) (width height : Nat) : Img :=
  if drawFails then
    { width := width, height := height,
      pixels := List.replicate height (List.replicate width (100, 100, 150)) }
  else
    { width := width, height := height,
      pixels := (List.range height).map
        (fun y => gradientRow (colorPairOf pyHash book_id) y height width) }

/-- Flatten one pixel row into bytes. -/
def rowBytes : List (Nat × Nat × Nat) → List Nat
  | [] => []
  | (r, g, b) :: rest => r :: g :: b :: rowBytes rest

/-- Flatten all pixel rows into bytes. -/
def joinPixels : List (List (Nat × Nat × Nat)) → List Nat
  | [] => []
  | row :: rest => rowBytes row ++ joinPixels rest

/-- Abstract PNG serialization of an image: always non-empty, records the
dimensions, followed by the pixel data. -/
def encodePng (img : Img) : List Nat :=
  img.width :: img.height :: joinPixels img.pixels

/-- `PIL.Image.thumbnail((maxW, maxH))`: identity when the image already fits,
otherwise downscale preserving aspect ratio (resampling itself is not
modelled; no claim inspects resized pixel data). -/
def thumbnail (img : Img) (maxW maxH : Nat) : Img :=
  if img.width ≤ maxW && img.height ≤ maxH then img
  else
    let w := min maxW (img.width * maxH / img.height)
    let h := min maxH (img.height * maxW / img.width)
    { width := w, height := h,
      pixels := List.replicate h (List.replicate w (255, 255, 255)) }

/-- `extract_covers.resize_and_optimize_cover`: decode the raw bytes (PIL
decoding of arbitrary bytes is the environment capability `decode`), fit them
into 300x450, re-encode; any error returns the original bytes unchanged. -/
def resize_and_optimize_cover (decode : List Nat → Option Img)
    (data : List Nat) : List Nat :=
  match decode data with
  | some img => encodePng (thumbnail img 300 450)
  | none => data

/-- The per-book body of the loop in `extract_covers.extract_all_covers`,
after the already-exists skip: the bytes written for this book, or `none` when
nothing is written (no cover found with placeholders disabled, or the
placeholder branch re-reads a raising EPUB and its `except` path writes
nothing). -/
def processOne (pyHash : String → Int) (decode : List Nat → Option Img)
    (drawFails createPlaceholders : Bool) (stem : String) (f : EpubFile) :
    Option (List Nat) :=
  let book_id := pyLower stem
  let cover_data := extract_cover f
  if truthy cover_data then
    some (resize_and_optimize_cover decode (cover_data.getD []))
  else if createPlaceholders then
    match f with
    | .corrupt => none
    | .ok b =>
      let title :=
        match b.dcTitle with
        | some t => t
        | none => pyTitle (pyReplaceChar stem '-' " ")
      let author :=
        match b.dcCreator with
        | some a => a
        | none => "Unknown"
      some (encodePng (create_placeholder_cover pyHash drawFails book_id title author 300 450))
  else none

/-- One iteration of the loop of `extract_all_covers` over the output
directory state: skip when `<book-id>.png` exists, otherwise write whatever
`processOne` produces. -/
def coverStep (pyHash : String → Int) (decode : List Nat → Option Img)
    (drawFails createPlaceholders : Bool)
    (acc : List (String × List Nat)) (sf : String × EpubFile) :
    List (String × List Nat) :=
  let book_id := pyLower sf.1
  if (lookupG acc book_id).isSome then acc
  else
    match processOne pyHash decode drawFails createPlaceholders sf.1 sf.2 with
    | some data => acc ++ [(book_id, data)]
    | none => acc

/-- `extract_covers.extract_all_covers` over the output directory, modelled as
an association list from file name (book id) to written bytes; `files` is the
EPUB list in iteration (sorted) order with each file's stem. -/
def runExtract (pyHash : String → Int) (decode : List Nat → Option Img)
    (drawFails createPlaceholders : Bool)
    (fs : List (String × List Nat)) (files : List (String × EpubFile)) :
    List (String × List Nat) :=
  files.foldl (coverStep pyHash decode drawFails createPlaceholders) fs

/-- `extract_covers.main`: exit code and final output-directory state.  When
the input directory is missing it returns 1 before processing; otherwise it
runs `extract_all_covers` (whose early return on an empty EPUB list is not
consulted) and returns 0. -/
def extract_covers_main (dirExists : Bool) (pyHash : String → Int)
    (decode : List Nat → Option Img) (drawFails noPlaceholders : Bool)
    (fs : List (String × List Nat)) (files : List (String × EpubFile)) :
    Nat × List (String × List Nat) :=
  if !dirExists then (1, fs)
  else (0, runExtract pyHash decode drawFails (!noPlaceholders) fs files)

/-- One input EPUB of the catalog generator: stem, parse outcome, on-disk
size, and whether a matching pre-extracted cover exists. -/
structure CatalogInput where
  stem : String
  parse : ParseResult
  size : Nat
  coverExists : Bool
deriving DecidableEq

/-- The generated catalog document. -/
structure Catalog where
  version : Nat
  lastUpdated : String
  collections : List Collection
  books : List BookEntry
deriving DecidableEq

/-- `generate_catalog.generate_catalog`: `none` models the `return None` taken
when no EPUB files are found; `files` is in iteration (sorted) order and
`today` is the run date. -/
def generate_catalog (today firebasePath : String) (files : List CatalogInput) :
    Option Catalog :=
  if files.isEmpty then none
  else
    let books := files.map
      (fun fi => generate_book_entry fi.stem fi.parse fi.size firebasePath fi.coverExists)
    some { version := 1, lastUpdated := today,
           collections := create_collections books, books := books }

/-- `generate_catalog.main`: 1 when the input directory is missing; 1 when
`generate_catalog` returned `None`; 0 otherwise. -/
def generate_catalog_main (dirExists : Bool) (today firebasePath : String)
    (files : List CatalogInput) : Nat :=
  if !dirExists then 1
  else
    match generate_catalog today firebasePath files with
    | none => 1
    | some _ => 0

/-- Demo book used by concrete witnesses. -/
def demoBook : BookEntry :=
  generate_book_entry "great-adventure" (.ok ⟨some "The Great Adventure", some "A. Writer", none, none⟩)
    1000 "epubs" false

/-- Second demo book (same genre as `demoBook`) used by concrete witnesses. -/
def demoBook2 : BookEntry :=
  generate_book_entry "plain-tales" (.ok ⟨some "Plain Tales", some "B. Writer", none, none⟩)
    2000 "epubs" false

/-- Demo book list used by concrete witnesses. -/
def demoBooks : List BookEntry := [demoBook, demoBook2]

/-- The keys of a grouped association list. -/
def keysOf (gs : List (String × List String)) : List String :=
  gs.map Prod.fst

theorem lookupG_addId (gs : List (String × List String)) (k v q : String) :
    lookupG (addId gs k v) q =
      if q = k then some ((lookupG gs k).getD [] ++ [v]) else lookupG gs q := by
  induction gs with
  | nil =>
    by_cases hq : q = k
    · subst hq; simp [addId, lookupG]
    · have hq' : ¬ k = q := fun h => hq h.symm
      simp [addId, lookupG, hq, hq']
  | cons hd rest ih =>
    obtain ⟨k', vs⟩ := hd
    by_cases hk : k' = k
    · subst hk
      by_cases hq : q = k'
      · subst hq
        simp [addId, lookupG]
      · have hq' : ¬ k' = q := fun h => hq h.symm
        simp [addId, lookupG, hq, hq']
    · by_cases hq : q = k
      · subst hq
        have hk' : ¬ k' = q := hk
        simp [addId, lookupG, hk, hk', ih]
      · by_cases hq' : k' = q
        · subst hq'
          simp [addId, lookupG, hk, hq]
        · simp [addId, lookupG, hk, hq, hq', ih]

theorem lookupG_groupIds (key : BookEntry → String) :
    ∀ (books : List BookEntry) (init : List (String × List String)) (q : String),
      lookupG (groupIds key books init) q =
        if lookupG init q = none ∧ idsOf key q books = [] then none
        else some ((lookupG init q).getD [] ++ idsOf key q books) := by
  intro books
  induction books with
  | nil =>
    intro init q
    simp only [groupIds, List.foldl_nil, idsOf, List.filter_nil, List.map_nil,
      List.append_nil]
    cases h : lookupG init q <;> simp [h]
  | cons b rest ih =>
    intro init q
    have hstep : groupIds key (b :: rest) init = groupIds key rest (addId init (key b) b.id) := by
      simp [groupIds]
    rw [hstep, ih]
    by_cases hq : q = key b
    · subst hq
      have hl : lookupG (addId init (key b) b.id) (key b) =
          some ((lookupG init (key b)).getD [] ++ [b.id]) := by
        simp [lookupG_addId]
      have hfil : idsOf key (key b) (b :: rest) = b.id :: idsOf key (key b) rest := by
        simp [idsOf, List.filter_cons]
      rw [hl, hfil]
      simp [List.append_assoc]
    · have hq' : ¬ (key b = q) := fun h => hq h.symm
      have hl : lookupG (addId init (key b) b.id) q = lookupG init q := by
        rw [lookupG_addId, if_neg hq]
      have hfil : idsOf key q (b :: rest) = idsOf key q rest := by
        simp [idsOf, List.filter_cons, hq']
      rw [hl, hfil]

theorem lookupG_groupIds_nil (key : BookEntry → String) (books : List BookEntry) (q : String) :
    lookupG (groupIds key books []) q =
      if idsOf key q books = [] then none else some (idsOf key q books) := by
  rw [lookupG_groupIds]
  simp [lookupG]

theorem keysOf_addId (gs : List (String × List String)) (k v : String) :
    keysOf (addId gs k v) =
      if k ∈ keysOf gs then keysOf gs else keysOf gs ++ [k] := by
  induction gs with
  | nil => simp [addId, keysOf]
  | cons hd rest ih =>
    obtain ⟨k', vs⟩ := hd
    by_cases hk : k' = k
    · subst hk; simp [addId, keysOf]
    · have hk' : ¬ k = k' := fun h => hk h.symm
      simp only [keysOf] at ih ⊢
      simp only [addId, if_neg hk, List.map_cons]
      rw [ih]
      by_cases hmem : k ∈ rest.map Prod.fst
      · simp [hmem]
      · simp [hmem, hk']

theorem nodup_keys_addId (gs : List (String × List String)) (k v : String)
    (h : (keysOf gs).Nodup) : (keysOf (addId gs k v)).Nodup := by
  rw [keysOf_addId]
  by_cases hmem : k ∈ keysOf gs
  · rw [if_pos hmem]; exact h
  · rw [if_neg hmem]
    simp [List.nodup_append, h, hmem]

theorem nodup_keys_groupIds (key : BookEntry → String) :
    ∀ (books : List BookEntry) (init : List (String × List String)),
      (keysOf init).Nodup → (keysOf (groupIds key books init)).Nodup := by
  intro books
  induction books with
  | nil => intro init h; simpa [groupIds] using h
  | cons b rest ih =>
    intro init h
    have hstep : groupIds key (b :: rest) init = groupIds key rest (addId init (key b) b.id) := by
      simp [groupIds]
    rw [hstep]
    exact ih _ (nodup_keys_addId _ _ _ h)

theorem lookupG_of_mem {α : Type} :
    ∀ (gs : List (String × α)), (gs.map Prod.fst).Nodup →
      ∀ {q : String} {vs : α}, (q, vs) ∈ gs → lookupG gs q = some vs := by
  intro gs
  induction gs with
  | nil => intro _ q vs h; cases h
  | cons hd rest ih =>
    obtain ⟨k, ws⟩ := hd
    intro hnd q vs hmem
    have hnd' : k ∉ rest.map Prod.fst ∧ (rest.map Prod.fst).Nodup := by
      rw [List.map_cons, List.nodup_cons] at hnd
      exact hnd
    rcases List.mem_cons.mp hmem with heq | hrest
    · have h1 : q = k := congrArg Prod.fst heq
      have h2 : vs = ws := congrArg Prod.snd heq
      subst h1; subst h2
      simp [lookupG]
    · have hk : ¬ (k = q) := by
        intro h
        subst h
        exact hnd'.1 (List.mem_map_of_mem Prod.fst hrest)
      simp only [lookupG, if_neg hk]
      exact ih hnd'.2 hrest

theorem mem_of_lookupG {α : Type} :
    ∀ (gs : List (String × α)) (q : String) (vs : α),
      lookupG gs q = some vs → (q, vs) ∈ gs := by
  intro gs
  induction gs with
  | nil => intro q vs h; cases h
  | cons hd rest ih =>
    obtain ⟨k, ws⟩ := hd
    intro q vs h
    simp only [lookupG] at h
    by_cases hk : k = q
    · subst hk
      rw [if_pos rfl] at h
      have hws : ws = vs := Option.some.inj h
      subst hws
      exact List.mem_cons_self _ _
    · rw [if_neg hk] at h
      exact List.mem_cons.mpr (Or.inr (ih q vs h))

theorem mem_insertPair (x y : String × List String) :
    ∀ l, y ∈ insertPair x l ↔ y = x ∨ y ∈ l := by
  intro l
  induction l with
  | nil => simp [insertPair]
  | cons hd rest ih =>
    by_cases hle : x.1 ≤ hd.1
    · simp [insertPair, hle]
    · simp only [insertPair, if_neg hle, List.mem_cons, ih]
      tauto

theorem mem_sortPairs (y : String × List String) :
    ∀ l, y ∈ sortPairs l ↔ y ∈ l := by
  intro l
  induction l with
  | nil => simp [sortPairs]
  | cons hd rest ih =>
    have h1 : sortPairs (hd :: rest) = insertPair hd (sortPairs rest) := rfl
    rw [h1, mem_insertPair, ih, List.mem_cons]

theorem mem_buildAgeCols (ages : List (String × List String)) :
    ∀ (l : List String) (so : Nat) (c : Collection),
      c ∈ (buildAgeCols ages l so).1 →
      ∃ a so' ids, a ∈ l ∧ lookupG ages a = some ids ∧ ids ≠ [] ∧ c = mkAgeCol a so' ids := by
  intro l
  induction l with
  | nil => intro so c h; simp [buildAgeCols] at h
  | cons a rest ih =>
    intro so c h
    cases hl : lookupG ages a with
    | none =>
      have heq : buildAgeCols ages (a :: rest) so = buildAgeCols ages rest so := by
        simp [buildAgeCols, hl]
      rw [heq] at h
      obtain ⟨a', so', ids, hmem, hlk, hne, hc⟩ := ih so c h
      exact ⟨a', so', ids, List.mem_cons_of_mem _ hmem, hlk, hne, hc⟩
    | some ids =>
      by_cases hem : ids.isEmpty
      · have heq : buildAgeCols ages (a :: rest) so = buildAgeCols ages rest so := by
          simp [buildAgeCols, hl, hem]
        rw [heq] at h
        obtain ⟨a', so', ids', hmem, hlk, hne, hc⟩ := ih so c h
        exact ⟨a', so', ids', List.mem_cons_of_mem _ hmem, hlk, hne, hc⟩
      · have heq : (buildAgeCols ages (a :: rest) so).1 =
            mkAgeCol a so ids :: (buildAgeCols ages rest (so + 1)).1 := by
          simp [buildAgeCols, hl, hem]
        rw [heq] at h
        rcases List.mem_cons.mp h with hc | hc
        · refine ⟨a, so, ids, List.mem_cons_self _ _, hl, ?_, hc⟩
          simpa [List.isEmpty_iff] using hem
        · obtain ⟨a', so', ids', hmem, hlk, hne, hc'⟩ := ih (so + 1) c hc
          exact ⟨a', so', ids', List.mem_cons_of_mem _ hmem, hlk, hne, hc'⟩

theorem mem_buildGenreCols :
    ∀ (l : List (String × List String)) (so : Nat) (c : Collection),
      c ∈ (buildGenreCols l so).1 →
      ∃ g ids so', (g, ids) ∈ l ∧ 2 ≤ ids.length ∧ c = mkGenreCol g so' ids := by
  intro l
  induction l with
  | nil => intro so c h; simp [buildGenreCols] at h
  | cons hd rest ih =>
    obtain ⟨g, ids⟩ := hd
    intro so c h
    by_cases hlen : 2 ≤ ids.length
    · have heq : (buildGenreCols ((g, ids) :: rest) so).1 =
          mkGenreCol g so ids :: (buildGenreCols rest (so + 1)).1 := by
        simp [buildGenreCols, hlen]
      rw [heq] at h
      rcases List.mem_cons.mp h with hc | hc
      · exact ⟨g, ids, so, List.mem_cons_self _ _, hlen, hc⟩
      · obtain ⟨g', ids', so', hmem, hlen', hc'⟩ := ih (so + 1) c hc
        exact ⟨g', ids', so', List.mem_cons_of_mem _ hmem, hlen', hc'⟩
    · have heq : buildGenreCols ((g, ids) :: rest) so = buildGenreCols rest so := by
        simp [buildGenreCols, hlen]
      rw [heq] at h
      obtain ⟨g', ids', so', hmem, hlen', hc'⟩ := ih so c h
      exact ⟨g', ids', so', List.mem_cons_of_mem _ hmem, hlen', hc'⟩

theorem buildGenreCols_of_mem :
    ∀ (l : List (String × List String)) (so : Nat) (g : String) (ids : List String),
      (g, ids) ∈ l → 2 ≤ ids.length →
      ∃ so', mkGenreCol g so' ids ∈ (buildGenreCols l so).1 := by
  intro l
  induction l with
  | nil => intro so g ids h; cases h
  | cons hd rest ih =>
    obtain ⟨g', ids'⟩ := hd
    intro so g ids hmem hlen
    by_cases hlen' : 2 ≤ ids'.length
    · have heq : (buildGenreCols ((g', ids') :: rest) so).1 =
          mkGenreCol g' so ids' :: (buildGenreCols rest (so + 1)).1 := by
        simp [buildGenreCols, hlen']
      rcases List.mem_cons.mp hmem with hc | hc
      · have h1 : g = g' := congrArg Prod.fst hc
        have h2 : ids = ids' := congrArg Prod.snd hc
        subst h1; subst h2
        exact ⟨so, by rw [heq]; exact List.mem_cons_self _ _⟩
      · obtain ⟨so', hmem'⟩ := ih (so + 1) g ids hc hlen
        exact ⟨so', by rw [heq]; exact List.mem_cons_of_mem _ hmem'⟩
    · rcases List.mem_cons.mp hmem with hc | hc
      · have h2 : ids = ids' := congrArg Prod.snd hc
        subst h2
        exact absurd hlen hlen'
      · have heq : buildGenreCols ((g', ids') :: rest) so = buildGenreCols rest so := by
          simp [buildGenreCols, hlen']
        obtain ⟨so', hmem'⟩ := ih so g ids hc hlen
        exact ⟨so', by rw [heq]; exact hmem'⟩

theorem containsAny_eq_false_iff (s : String) (ws : List String) :
    containsAny s ws = false ↔ ¬ HasAnyWord s ws := by
  rw [← containsAny_iff]
  cases containsAny s ws <;> simp

theorem strContains_eq_false_iff (s sub : String) :
    strContains s sub = false ↔ ¬ ContainsSub s sub := by
  rw [← strContains_iff]
  cases strContains s sub <;> simp

theorem genre_author_lower (author : String) :
    (if author.isEmpty then "" else pyLower author) = pyLower author := by
  by_cases h : author.isEmpty
  · rw [if_pos h]
    rw [String.isEmpty_iff] at h
    subst h
    rfl
  · rw [if_neg h]

/-- C3: counterexample.  The title "Stories For Children" contains "children"
(lower-cased) and no keyword of any earlier rule, and its tags are the
pipeline's fixed `["Classic"]`, yet `guess_genre` returns "Fiction", not
"Children's Literature": the code checks "children" only in the tag text and
"kid" only in the title. -/
theorem c3_counterexample :
    strContains (pyLower "Stories For Children") "children" = true
    ∧ containsAny (pyLower "Stories For Children") mysteryWords = false
    ∧ containsAny (pyLower "Stories For Children") fantasyWords = false
    ∧ containsAny (pyLower "Stories For Children") romanceWords = false
    ∧ containsAny (pyLower "Stories For Children") horrorWords = false
    ∧ containsAny (pyLower "Stories For Children") scienceWords = false
    ∧ guess_genre "Stories For Children" "Unknown" ["Classic"] = "Fiction"
    ∧ guess_genre "Stories For Children" "Unknown" ["Classic"] ≠ "Children's Literature" := by
  decide

/-- C3 (amended): the rule table of `guess_genre` in priority order, first
match wins, with the sixth rule as the code has it: "children" is matched
against the joined, lower-cased tag text only, and "kid" against the
lower-cased title only. -/
theorem c3_amended (title author : String) (tags : List String) :
    (HasAnyWord (pyLower title) mysteryWords →
      guess_genre title author tags = "Mystery")
    ∧ (¬ HasAnyWord (pyLower title) mysteryWords →
       HasAnyWord (pyLower title) fantasyWords →
      guess_genre title author tags = "Fantasy")
    ∧ (¬ HasAnyWord (pyLower title) mysteryWords →
       ¬ HasAnyWord (pyLower title) fantasyWords →
       HasAnyWord (pyLower title) romanceWords →
      guess_genre title author tags = "Romance")
    ∧ (¬ HasAnyWord (pyLower title) mysteryWords →
       ¬ HasAnyWord (pyLower title) fantasyWords →
       ¬ HasAnyWord (pyLower title) romanceWords →
       HasAnyWord (pyLower title) horrorWords →
      guess_genre title author tags = "Horror")
    ∧ (¬ HasAnyWord (pyLower title) mysteryWords →
       ¬ HasAnyWord (pyLower title) fantasyWords →
       ¬ HasAnyWord (pyLower title) romanceWords →
       ¬ HasAnyWord (pyLower title) horrorWords →
       HasAnyWord (pyLower title) scienceWords →
      guess_genre title author tags = "Science Fiction")
    ∧ (¬ HasAnyWord (pyLower title) mysteryWords →
       ¬ HasAnyWord (pyLower title) fantasyWords →
       ¬ HasAnyWord (pyLower title) romanceWords →
       ¬ HasAnyWord (pyLower title) horrorWords →
       ¬ HasAnyWord (pyLower title) scienceWords →
       (ContainsSub (pyLower (joinSpace tags)) "children" ∨ ContainsSub (pyLower title) "kid") →
      guess_genre title author tags = "Children's Literature")
    ∧ (¬ HasAnyWord (pyLower title) mysteryWords →
       ¬ HasAnyWord (pyLower title) fantasyWords →
       ¬ HasAnyWord (pyLower title) romanceWords →
       ¬ HasAnyWord (pyLower title) horrorWords →
       ¬ HasAnyWord (pyLower title) scienceWords →
       ¬ (ContainsSub (pyLower (joinSpace tags)) "children" ∨ ContainsSub (pyLower title) "kid") →
       (ContainsSub (pyLower author) "dickens" ∨ ContainsSub (pyLower author) "austen") →
      guess_genre title author tags = "Classic Literature")
    ∧ (¬ HasAnyWord (pyLower title) mysteryWords →
       ¬ HasAnyWord (pyLower title) fantasyWords →
       ¬ HasAnyWord (pyLower title) romanceWords →
       ¬ HasAnyWord (pyLower title) horrorWords →
       ¬ HasAnyWord (pyLower title) scienceWords →
       ¬ (ContainsSub (pyLower (joinSpace tags)) "children" ∨ ContainsSub (pyLower title) "kid") →
       ¬ (ContainsSub (pyLower author) "dickens" ∨ ContainsSub (pyLower author) "austen") →
      guess_genre title author tags = "Fiction") := by
  have hal : (if author.isEmpty then "" else pyLower author) = pyLower author :=
    genre_author_lower author
  refine ⟨fun h1 => ?_, fun h1 h2 => ?_, fun h1 h2 h3 => ?_, fun h1 h2 h3 h4 => ?_,
    fun h1 h2 h3 h4 h5 => ?_, fun h1 h2 h3 h4 h5 h6 => ?_,
    fun h1 h2 h3 h4 h5 h6 h7 => ?_, fun h1 h2 h3 h4 h5 h6 h7 => ?_⟩
  · have b1 := (containsAny_iff _ _).mpr h1
    simp [guess_genre, b1]
  · have b1 := (containsAny_eq_false_iff _ _).mpr h1
    have b2 := (containsAny_iff _ _).mpr h2
    simp [guess_genre, b1, b2]
  · have b1 := (containsAny_eq_false_iff _ _).mpr h1
    have b2 := (containsAny_eq_false_iff _ _).mpr h2
    have b3 := (containsAny_iff _ _).mpr h3
    simp [guess_genre, b1, b2, b3]
  · have b1 := (containsAny_eq_false_iff _ _).mpr h1
    have b2 := (containsAny_eq_false_iff _ _).mpr h2
    have b3 := (containsAny_eq_false_iff _ _).mpr h3
    have b4 := (containsAny_iff _ _).mpr h4
    simp [guess_genre, b1, b2, b3, b4]
  · have b1 := (containsAny_eq_false_iff _ _).mpr h1
    have b2 := (containsAny_eq_false_iff _ _).mpr h2
    have b3 := (containsAny_eq_false_iff _ _).mpr h3
    have b4 := (containsAny_eq_false_iff _ _).mpr h4
    have b5 := (containsAny_iff _ _).mpr h5
    simp [guess_genre, b1, b2, b3, b4, b5]
  · have b1 := (containsAny_eq_false_iff _ _).mpr h1
    have b2 := (containsAny_eq_false_iff _ _).mpr h2
    have b3 := (containsAny_eq_false_iff _ _).mpr h3
    have b4 := (containsAny_eq_false_iff _ _).mpr h4
    have b5 := (containsAny_eq_false_iff _ _).mpr h5
    have b6 : (strContains (pyLower (joinSpace tags)) "children"
        || strContains (pyLower title) "kid") = true := by
      rw [Bool.or_eq_true]
      rcases h6 with h | h
      · exact Or.inl ((strContains_iff _ _).mpr h)
      · exact Or.inr ((strContains_iff _ _).mpr h)
    simp [guess_genre, b1, b2, b3, b4, b5, b6]
  · have b1 := (containsAny_eq_false_iff _ _).mpr h1
    have b2 := (containsAny_eq_false_iff _ _).mpr h2
    have b3 := (containsAny_eq_false_iff _ _).mpr h3
    have b4 := (containsAny_eq_false_iff _ _).mpr h4
    have b5 := (containsAny_eq_false_iff _ _).mpr h5
    have bc1 : strContains (pyLower (joinSpace tags)) "children" = false :=
      (strContains_eq_false_iff _ _).mpr (fun hx => h6 (Or.inl hx))
    have bc2 : strContains (pyLower title) "kid" = false :=
      (strContains_eq_false_iff _ _).mpr (fun hx => h6 (Or.inr hx))
    have b7 : (strContains (pyLower author) "dickens"
        || strContains (pyLower author) "austen") = true := by
      rw [Bool.or_eq_true]
      rcases h7 with h | h
      · exact Or.inl ((strContains_iff _ _).mpr h)
      · exact Or.inr ((strContains_iff _ _).mpr h)
    simp [guess_genre, hal, b1, b2, b3, b4, b5, bc1, bc2, b7]
  · have b1 := (containsAny_eq_false_iff _ _).mpr h1
    have b2 := (containsAny_eq_false_iff _ _).mpr h2
    have b3 := (containsAny_eq_false_iff _ _).mpr h3
    have b4 := (containsAny_eq_false_iff _ _).mpr h4
    have b5 := (containsAny_eq_false_iff _ _).mpr h5
    have bc1 : strContains (pyLower (joinSpace tags)) "children" = false :=
      (strContains_eq_false_iff _ _).mpr (fun hx => h6 (Or.inl hx))
    have bc2 : strContains (pyLower title) "kid" = false :=
      (strContains_eq_false_iff _ _).mpr (fun hx => h6 (Or.inr hx))
    have bd1 : strContains (pyLower author) "dickens" = false :=
      (strContains_eq_false_iff _ _).mpr (fun hx => h7 (Or.inl hx))
    have bd2 : strContains (pyLower author) "austen" = false :=
      (strContains_eq_false_iff _ _).mpr (fun hx => h7 (Or.inr hx))
    simp [guess_genre, hal, b1, b2, b3, b4, b5, bc1, bc2, bd1, bd2]

/-- C3 (amended) witness: a concrete title containing "kid" (and no
earlier-rule keyword) classified via the sixth conjunct of `c3_amended`. -/
theorem c3_amended_witness :
    guess_genre "Tales for kids" "Unknown" ["Classic"] = "Children's Literature" := by
  have hm : ¬ HasAnyWord (pyLower "Tales for kids") mysteryWords :=
    (containsAny_eq_false_iff _ _).mp (by decide)
  have hf : ¬ HasAnyWord (pyLower "Tales for kids") fantasyWords :=
    (containsAny_eq_false_iff _ _).mp (by decide)
  have hr : ¬ HasAnyWord (pyLower "Tales for kids") romanceWords :=
    (containsAny_eq_false_iff _ _).mp (by decide)
  have hh : ¬ HasAnyWord (pyLower "Tales for kids") horrorWords :=
    (containsAny_eq_false_iff _ _).mp (by decide)
  have hs : ¬ HasAnyWord (pyLower "Tales for kids") scienceWords :=
    (containsAny_eq_false_iff _ _).mp (by decide)
  have hk : ContainsSub (pyLower "Tales for kids") "kid" :=
    (strContains_iff _ _).mp (by decide)
  exact (c3_amended "Tales for kids" "Unknown" ["Classic"]).2.2.2.2.2.1
    hm hf hr hh hs (Or.inr hk)

theorem replaceCh_singleton_length (c rc : Char) :
    ∀ l : List Char, (replaceCh c [rc] l).length = l.length := by
  intro l
  induction l with
  | nil => rfl
  | cons ch t ih => by_cases h : ch = c <;> simp [replaceCh, h, ih]

theorem pyTitleAux_length :
    ∀ (b : Bool) (l : List Char), (pyTitleAux b l).length = l.length := by
  intro b l
  induction l generalizing b with
  | nil => rfl
  | cons ch t ih => simp [pyTitleAux, ih]

theorem pyReplaceChar_space_empty_iff (s : String) (c : Char) :
    pyReplaceChar s c " " = "" ↔ s = "" := by
  constructor
  · intro h
    have hd : replaceCh c [' '] s.data = ([] : List Char) := congrArg String.data h
    have hl : s.data.length = 0 := by
      rw [← replaceCh_singleton_length c ' ' s.data, hd]
      rfl
    have hnil : s.data = [] := List.length_eq_zero.mp hl
    cases s with
    | mk data => exact congrArg String.mk hnil
  · intro h; subst h; rfl

theorem pyTitle_empty_iff (s : String) : pyTitle s = "" ↔ s = "" := by
  constructor
  · intro h
    have hd : pyTitleAux false s.data = ([] : List Char) := congrArg String.data h
    have hl : s.data.length = 0 := by
      rw [← pyTitleAux_length false s.data, hd]
      rfl
    have hnil : s.data = [] := List.length_eq_zero.mp hl
    cases s with
    | mk data => exact congrArg String.mk hnil
  · intro h; subst h; rfl

/-- C5: counterexample.  For the EPUB stem "my_book" parsed successfully but
with no title metadata, the catalog title is "My_Book": the fallback inside
`generate_book_entry` replaces only hyphens, so the underscore survives,
whereas the claim requires "My Book". -/
theorem c5_counterexample :
    (generate_book_entry "my_book" (.ok ⟨none, none, none, none⟩) 0 "epubs" false).title
        = "My_Book"
    ∧ (generate_book_entry "my_book" (.ok ⟨none, none, none, none⟩) 0 "epubs" false).title
        ≠ "My Book" := by
  decide

/-- C5 (amended): a metadata parse failure yields the filename-derived title
with both hyphens and underscores replaced by spaces and title-cased, and a
missing author (in either path) yields "Unknown"; but when the parse succeeds
and only the title is missing, the fallback replaces hyphens only, leaving
underscores in place.  No case propagates an exception (the embedding is a
total function on parse outcomes). -/
theorem c5_amended (stem : String) (m : Meta) (fileSize : Nat)
    (firebasePath : String) (coverExists : Bool) :
    ((generate_book_entry stem .failure fileSize firebasePath coverExists).title
      = pyTitle (pyReplaceChar (pyReplaceChar stem '-' " ") '_' " "))
    ∧ (m.title = none →
        (generate_book_entry stem (.ok m) fileSize firebasePath coverExists).title
          = pyTitle (pyReplaceChar stem '-' " "))
    ∧ (m.author = none →
        (generate_book_entry stem (.ok m) fileSize firebasePath coverExists).author
          = "Unknown")
    ∧ ((generate_book_entry stem .failure fileSize firebasePath coverExists).author
      = "Unknown") := by
  refine ⟨?_, fun hm => ?_, fun hm => ?_, ?_⟩
  · by_cases hT : pyTitle (pyReplaceChar (pyReplaceChar stem '-' " ") '_' " ") = ""
    · have hstem : stem = "" := by
        have h1 := (pyTitle_empty_iff _).mp hT
        exact (pyReplaceChar_space_empty_iff _ _).mp
          ((pyReplaceChar_space_empty_iff _ _).mp h1)
      subst hstem
      rfl
    · simp [generate_book_entry, extract_epub_metadata, orFalsy, hT]
  · simp [generate_book_entry, extract_epub_metadata, orFalsy, hm]
  · simp [generate_book_entry, extract_epub_metadata, orFalsy, hm]
  · simp [generate_book_entry, extract_epub_metadata, orFalsy]

/-- C5 (amended) witness: concrete instances of the three hypothetical
conjuncts of `c5_amended`. -/
theorem c5_amended_witness :
    ((generate_book_entry "wind_song" .failure 0 "epubs" false).title
      = pyTitle (pyReplaceChar (pyReplaceChar "wind_song" '-' " ") '_' " "))
    ∧ ((generate_book_entry "my_book" (.ok ⟨none, some "A. Writer", none, none⟩) 0 "epubs" false).title
      = pyTitle (pyReplaceChar "my_book" '-' " "))
    ∧ ((generate_book_entry "my_book" (.ok ⟨some "T", none, none, none⟩) 0 "epubs" false).author
      = "Unknown") :=
  ⟨(c5_amended "wind_song" ⟨none, none, none, none⟩ 0 "epubs" false).1,
   (c5_amended "my_book" ⟨none, some "A. Writer", none, none⟩ 0 "epubs" false).2.1 rfl,
   (c5_amended "my_book" ⟨some "T", none, none, none⟩ 0 "epubs" false).2.2.1 rfl⟩

/-- C4: counterexample.  The "All Books" collection is in every generated
collections list, and its id is the fixed string "all", not the slugified
display name "all-books". -/
theorem c4_counterexample :
    allBooksCollection demoBooks ∈ create_collections demoBooks
    ∧ (allBooksCollection demoBooks).id
        ≠ specSlug (allBooksCollection demoBooks).name := by
  constructor
  · exact List.mem_cons_self _ _
  · decide

/-- C4 (amended): genre-bucket collections have id equal to the slugified
collection name; the "All Books" collection instead has the fixed id "all";
and each age-bucket collection has id equal to the slugified age (its display
name carries an extra " Books" suffix that the id omits). -/
theorem c4_amended (books : List BookEntry) (c : Collection)
    (h : c ∈ create_collections books) :
    (c.name = "All Books" ∧ c.id = "all")
    ∨ (∃ a, (a = "Children" ∨ a = "Young Adult" ∨ a = "Adult")
        ∧ c.name = a ++ " Books" ∧ c.id = specSlug a)
    ∨ c.id = specSlug c.name := by
  rcases List.mem_cons.mp h with hc | hc
  · subst hc
    exact Or.inl ⟨rfl, rfl⟩
  · rcases List.mem_append.mp hc with hage | hgenre
    · obtain ⟨a, so', ids, hmem, hlk, hne, hceq⟩ := mem_buildAgeCols _ _ _ _ hage
      subst hceq
      refine Or.inr (Or.inl ⟨a, ?_, rfl, ?_⟩)
      · simpa [ageOrder] using hmem
      · have hmem' : a = "Children" ∨ a = "Young Adult" ∨ a = "Adult" := by
          simpa [ageOrder] using hmem
        rcases hmem' with h1 | h1 | h1 <;> subst h1 <;> simp only [mkAgeCol] <;> decide
    · obtain ⟨g, ids, so', hmem, hlen, hceq⟩ := mem_buildGenreCols _ _ _ hgenre
      subst hceq
      exact Or.inr (Or.inr rfl)

/-- C4 (amended) witness: `c4_amended` applied to the head ("All Books")
collection of a concrete run. -/
theorem c4_amended_witness :
    ((allBooksCollection demoBooks).name = "All Books"
      ∧ (allBooksCollection demoBooks).id = "all")
    ∨ (∃ a, (a = "Children" ∨ a = "Young Adult" ∨ a = "Adult")
        ∧ (allBooksCollection demoBooks).name = a ++ " Books"
        ∧ (allBooksCollection demoBooks).id = specSlug a)
    ∨ (allBooksCollection demoBooks).id = specSlug (allBooksCollection demoBooks).name :=
  c4_amended demoBooks (allBooksCollection demoBooks) (List.mem_cons_self _ _)

/-- C8: a genre-bucket collection for genre `G` appears in the output of
`create_collections` exactly when at least two books of the input list have
genre `G`.  Genre-bucket collections are identified structurally by the
name/description format used only by the genre loop (the "All Books" and
age-bucket collections use different description formats). -/
theorem c8_genre_collection_iff (books : List BookEntry) (G : String) :
    (∃ c, c ∈ create_collections books ∧ isGenreCollection G c)
    ↔ 2 ≤ (books.filter (fun b => b.genre = G)).length := by
  constructor
  · rintro ⟨c, hmem, hgc⟩
    obtain ⟨hname, hdesc⟩ := hgc
    rcases List.mem_cons.mp hmem with hc | hc
    · subst hc
      simp only [allBooksCollection] at hname hdesc
      subst hname
      exact absurd hdesc (by decide)
    · rcases List.mem_append.mp hc with hage | hgenre
      · obtain ⟨a, so', ids, hmema, hlk, hne, hceq⟩ := mem_buildAgeCols _ _ _ _ hage
        subst hceq
        simp only [mkAgeCol] at hname hdesc
        have hmem' : a = "Children" ∨ a = "Young Adult" ∨ a = "Adult" := by
          simpa [ageOrder] using hmema
        subst hname
        rcases hmem' with h1 | h1 | h1 <;> subst h1 <;> exact absurd hdesc (by decide)
      · obtain ⟨g, ids, so', hmemg, hlen, hceq⟩ := mem_buildGenreCols _ _ _ hgenre
        subst hceq
        simp only [mkGenreCol] at hname
        subst hname
        have hmemgr : (g, ids) ∈ groupIds (fun b => b.genre) books [] :=
          (mem_sortPairs _ _).mp hmemg
        have hnd : (keysOf (groupIds (fun b => b.genre) books [])).Nodup :=
          nodup_keys_groupIds _ _ _ (by simp [keysOf])
        have hlk := lookupG_of_mem _ hnd hmemgr
        rw [lookupG_groupIds_nil] at hlk
        by_cases he : idsOf (fun b => b.genre) g books = []
        · rw [if_pos he] at hlk; cases hlk
        · rw [if_neg he] at hlk
          have hids : idsOf (fun b => b.genre) g books = ids := Option.some.inj hlk
          have hflen : (books.filter (fun b => b.genre = g)).length = ids.length := by
            rw [← hids]
            simp [idsOf]
          rw [hflen]
          exact hlen
  · intro hlen
    have hidslen : (idsOf (fun b => b.genre) G books).length
        = (books.filter (fun b => b.genre = G)).length := by
      simp [idsOf]
    have hne : idsOf (fun b => b.genre) G books ≠ [] := by
      intro h
      rw [h] at hidslen
      simp at hidslen
      rw [← hidslen] at hlen
      exact absurd hlen (by decide)
    have hlk : lookupG (groupIds (fun b => b.genre) books []) G
        = some (idsOf (fun b => b.genre) G books) := by
      rw [lookupG_groupIds_nil, if_neg hne]
    have hmemg : (G, idsOf (fun b => b.genre) G books) ∈ groupIds (fun b => b.genre) books [] :=
      mem_of_lookupG _ _ _ hlk
    have hmems : (G, idsOf (fun b => b.genre) G books)
        ∈ sortPairs (groupIds (fun b => b.genre) books []) :=
      (mem_sortPairs _ _).mpr hmemg
    have hlen2 : 2 ≤ (idsOf (fun b => b.genre) G books).length := by
      rw [hidslen]
      exact hlen
    obtain ⟨so', hmemcol⟩ := buildGenreCols_of_mem _
      ((buildAgeCols (groupIds (fun b => b.age) books []) ageOrder 1).2)
      G _ hmems hlen2
    refine ⟨mkGenreCol G so' (idsOf (fun b => b.genre) G books), ?_, ?_⟩
    · exact List.mem_cons_of_mem _ (List.mem_append_right _ hmemcol)
    · exact ⟨rfl, rfl⟩

/-- C10: every generated collection's `bookIds` is exactly the ordered
sublist of book ids selected by that collection's bucket: the full id list
for "All Books", the ids of the books with the collection's age for an
age-bucket collection, and the ids of the books with the collection's genre
for a genre-bucket collection — each in the books list's order. -/
theorem c10_collection_book_ids (books : List BookEntry) (c : Collection)
    (h : c ∈ create_collections books) :
    (c = allBooksCollection books ∧ c.bookIds = books.map BookEntry.id)
    ∨ (∃ a so, c = mkAgeCol a so ((books.filter (fun b => b.age = a)).map BookEntry.id)
        ∧ c.bookIds = (books.filter (fun b => b.age = a)).map BookEntry.id)
    ∨ (∃ g so, c = mkGenreCol g so ((books.filter (fun b => b.genre = g)).map BookEntry.id)
        ∧ c.bookIds = (books.filter (fun b => b.genre = g)).map BookEntry.id) := by
  rcases List.mem_cons.mp h with hc | hc
  · subst hc
    exact Or.inl ⟨rfl, rfl⟩
  · rcases List.mem_append.mp hc with hage | hgenre
    · obtain ⟨a, so', ids, hmema, hlk, hne, hceq⟩ := mem_buildAgeCols _ _ _ _ hage
      subst hceq
      rw [lookupG_groupIds_nil] at hlk
      by_cases he : idsOf (fun b => b.age) a books = []
      · rw [if_pos he] at hlk; cases hlk
      · rw [if_neg he] at hlk
        have hids : ids = (books.filter (fun b => b.age = a)).map BookEntry.id :=
          (Option.some.inj hlk).symm
        refine Or.inr (Or.inl ⟨a, so', ?_, hids⟩)
        rw [hids]
    · obtain ⟨g, ids, so', hmemg, hlen, hceq⟩ := mem_buildGenreCols _ _ _ hgenre
      subst hceq
      have hmemgr : (g, ids) ∈ groupIds (fun b => b.genre) books [] :=
        (mem_sortPairs _ _).mp hmemg
      have hnd : (keysOf (groupIds (fun b => b.genre) books [])).Nodup :=
        nodup_keys_groupIds _ _ _ (by simp [keysOf])
      have hlk := lookupG_of_mem _ hnd hmemgr
      rw [lookupG_groupIds_nil] at hlk
      by_cases he : idsOf (fun b => b.genre) g books = []
      · rw [if_pos he] at hlk; cases hlk
      · rw [if_neg he] at hlk
        have hids : ids = (books.filter (fun b => b.genre = g)).map BookEntry.id :=
          (Option.some.inj hlk).symm
        refine Or.inr (Or.inr ⟨g, so', ?_, hids⟩)
        rw [hids]

/-- C10 witness: `c10_collection_book_ids` applied to the "All Books"
collection of a concrete run. -/
theorem c10_witness :
    (allBooksCollection demoBooks = allBooksCollection demoBooks
      ∧ (allBooksCollection demoBooks).bookIds = demoBooks.map BookEntry.id)
    ∨ (∃ a so, allBooksCollection demoBooks
          = mkAgeCol a so ((demoBooks.filter (fun b => b.age = a)).map BookEntry.id)
        ∧ (allBooksCollection demoBooks).bookIds
          = (demoBooks.filter (fun b => b.age = a)).map BookEntry.id)
    ∨ (∃ g so, allBooksCollection demoBooks
          = mkGenreCol g so ((demoBooks.filter (fun b => b.genre = g)).map BookEntry.id)
        ∧ (allBooksCollection demoBooks).bookIds
          = (demoBooks.filter (fun b => b.genre = g)).map BookEntry.id) :=
  c10_collection_book_ids demoBooks (allBooksCollection demoBooks) (List.mem_cons_self _ _)

theorem coverVar2_of_m2 (b : EpubBook) (h2 : truthy (coverMethod2 b) = true) :
    coverVar2 b = coverMethod2 b := by
  cases hm : b.coverMeta with
  | none => simp [coverMethod2, hm, truthy] at h2
  | some cid =>
    cases hf : findIdItem b cid with
    | none => simp [coverMethod2, hm, hf, truthy] at h2
    | some it => simp [coverVar2, coverMethod2, hm, hf]

theorem coverVar2_falsy (b : EpubBook) (h1 : truthy (coverMethod1 b) = false)
    (h2 : truthy (coverMethod2 b) = false) : truthy (coverVar2 b) = false := by
  cases hm : b.coverMeta with
  | none => simpa [coverVar2, hm] using h1
  | some cid =>
    cases hf : findIdItem b cid with
    | none => simpa [coverVar2, hm, hf] using h1
    | some it =>
      have : coverMethod2 b = some it.content := by simp [coverMethod2, hm, hf]
      rw [this] at h2
      simpa [coverVar2, hm, hf] using h2

theorem coverVar3_of_m3 (b : EpubBook) (h3 : truthy (coverMethod3 b) = true) :
    coverVar3 b = coverMethod3 b := by
  cases hn : findNamedCover b with
  | none => simp [coverMethod3, hn, truthy] at h3
  | some it => simp [coverVar3, coverMethod3, hn]

theorem coverVar3_falsy (b : EpubBook) (h1 : truthy (coverMethod1 b) = false)
    (h2 : truthy (coverMethod2 b) = false) (h3 : truthy (coverMethod3 b) = false) :
    truthy (coverVar3 b) = false := by
  cases hn : findNamedCover b with
  | none => simpa [coverVar3, hn] using coverVar2_falsy b h1 h2
  | some it =>
    have : coverMethod3 b = some it.content := by simp [coverMethod3, hn]
    rw [this] at h3
    simpa [coverVar3, hn] using h3

/-- C7: the embedded-cover search of `extract_cover_from_epub` tries the four
methods in order and the first one that yields an actual (non-empty) image
wins: (1) the explicit cover item, (2) the item named by the OPF cover
metadata, (3) an image item with a cover-like name, (4) the first image of
any kind; when every method fails the function returns no cover (a falsy
value: `None` or empty bytes). -/
theorem c7_search_order (b : EpubBook) :
    (truthy (coverMethod1 b) = true →
      extract_cover_from_epub b = coverMethod1 b)
    ∧ (truthy (coverMethod1 b) = false → truthy (coverMethod2 b) = true →
      extract_cover_from_epub b = coverMethod2 b)
    ∧ (truthy (coverMethod1 b) = false → truthy (coverMethod2 b) = false →
       truthy (coverMethod3 b) = true →
      extract_cover_from_epub b = coverMethod3 b)
    ∧ (truthy (coverMethod1 b) = false → truthy (coverMethod2 b) = false →
       truthy (coverMethod3 b) = false → (findFirstImage b).isSome = true →
      extract_cover_from_epub b = coverMethod4 b)
    ∧ (truthy (coverMethod1 b) = false → truthy (coverMethod2 b) = false →
       truthy (coverMethod3 b) = false → findFirstImage b = none →
      truthy (extract_cover_from_epub b) = false) := by
  refine ⟨fun h1 => ?_, fun h1 h2 => ?_, fun h1 h2 h3 => ?_,
    fun h1 h2 h3 h4 => ?_, fun h1 h2 h3 h4 => ?_⟩
  · simp [extract_cover_from_epub, h1]
  · have hv := coverVar2_of_m2 b h2
    simp [extract_cover_from_epub, h1, hv, h2]
  · have hv2 := coverVar2_falsy b h1 h2
    have hv3 := coverVar3_of_m3 b h3
    simp [extract_cover_from_epub, h1, hv2, hv3, h3]
  · have hv2 := coverVar2_falsy b h1 h2
    have hv3 := coverVar3_falsy b h1 h2 h3
    obtain ⟨it, hi⟩ := Option.isSome_iff_exists.mp h4
    simp [extract_cover_from_epub, h1, hv2, hv3, coverVar4, coverMethod4, hi]
  · have hv2 := coverVar2_falsy b h1 h2
    have hv3 := coverVar3_falsy b h1 h2 h3
    have hv4 : truthy (coverVar4 b) = false := by
      simpa [coverVar4, h4] using hv3
    simp [extract_cover_from_epub, h1, hv2, hv3, hv4]

/-- Demo book for the C7 witness: method 1 applies. -/
def c7book1 : EpubBook :=
  ⟨[⟨ItemType.cover, "c1", "cover-img", [1, 2]⟩], none, none, none⟩

/-- Demo book for the C7 witness: method 2 applies (the OPF cover metadata
references an item that is not even an image, as the code allows). -/
def c7book2 : EpubBook :=
  ⟨[⟨ItemType.other, "idc", "page.xhtml", [7]⟩], some "idc", none, none⟩

/-- Demo book for the C7 witness: method 3 applies. -/
def c7book3 : EpubBook :=
  ⟨[⟨ItemType.image, "i1", "images/cover.png", [5]⟩], none, none, none⟩

/-- Demo book for the C7 witness: method 4 applies. -/
def c7book4 : EpubBook :=
  ⟨[⟨ItemType.image, "i1", "pic.jpg", [9]⟩], none, none, none⟩

/-- Demo book for the C7 witness: no method applies. -/
def c7book5 : EpubBook := ⟨[], none, none, none⟩

/-- C7 witness: each conjunct of `c7_search_order` exercised at a concrete
book. -/
theorem c7_search_order_witness :
    extract_cover_from_epub c7book1 = coverMethod1 c7book1
    ∧ extract_cover_from_epub c7book2 = coverMethod2 c7book2
    ∧ extract_cover_from_epub c7book3 = coverMethod3 c7book3
    ∧ extract_cover_from_epub c7book4 = coverMethod4 c7book4
    ∧ truthy (extract_cover_from_epub c7book5) = false :=
  ⟨(c7_search_order c7book1).1 (by decide),
   (c7_search_order c7book2).2.1 (by decide) (by decide),
   (c7_search_order c7book3).2.2.1 (by decide) (by decide) (by decide),
   (c7_search_order c7book4).2.2.2.1 (by decide) (by decide) (by decide) (by decide),
   (c7_search_order c7book5).2.2.2.2 (by decide) (by decide) (by decide) (by decide)⟩

/-- C6: counterexample.  Palette selection depends on `abs(hash(book_id)) % 6`
where `hash` is Python's process-randomized string hash (modelled as the
process's hash function): two processes whose hash functions differ on the
book id select different gradient pairs, so the selection is not stable
across executions. -/
theorem c6_counterexample :
    colorPairOf (fun _ => 0) "alice-in-wonderland"
      ≠ colorPairOf (fun _ => 1) "alice-in-wonderland" := by
  decide

/-- C6 (amended): within a single process (a fixed hash function) the
selection is a deterministic function of the book id, and it always picks a
pair from the fixed six-entry palette; across processes the pair can change
because Python's string hash is randomized per process. -/
theorem c6_amended (h h' : String → Int) (bid : String) (hh : h bid = h' bid) :
    colorPairOf h bid = colorPairOf h' bid
    ∧ colorPairOf h bid ∈ placeholderColors := by
  constructor
  · simp [colorPairOf, hh]
  · exact List.get_mem _ _ _

/-- C6 (amended) witness. -/
theorem c6_amended_witness :
    colorPairOf (fun _ => (2 : Int)) "alice" = colorPairOf (fun _ => (2 : Int)) "alice"
    ∧ colorPairOf (fun _ => (2 : Int)) "alice" ∈ placeholderColors :=
  c6_amended (fun _ => (2 : Int)) (fun _ => (2 : Int)) "alice" rfl

/-- C2: counterexample.  An EPUB whose container cannot be read produces zero
output files even with placeholders enabled: `extract_cover_from_epub`
swallows the parse error and returns `None`, and the placeholder branch calls
`epub.read_epub` again, whose exception lands in the `except` path that
writes nothing. -/
theorem c2_counterexample :
    processOne (fun _ => 0) (fun _ => none) false true "broken-book" EpubFile.corrupt
      = none := by
  decide

/-- C2 (amended): for every EPUB that parses but in which no cover is found
(the extraction result is falsy), the placeholder branch always writes
exactly one output: a non-empty PNG of the configured 300x450 dimensions,
regardless of whether the gradient-drawing code fails (the fallback is a flat
rectangle of the same size).  An EPUB whose container cannot be read is the
exception and yields no output file. -/
theorem c2_amended (pyHash : String → Int) (decode : List Nat → Option Img)
    (drawFails : Bool) (stem : String) (b : EpubBook)
    (h : truthy (extract_cover (.ok b)) = false) :
    ∃ img : Img,
      processOne pyHash decode drawFails true stem (.ok b) = some (encodePng img)
      ∧ img.width = 300 ∧ img.height = 450 ∧ encodePng img ≠ [] := by
  refine ⟨create_placeholder_cover pyHash drawFails (pyLower stem)
      (match b.dcTitle with
       | some t => t
       | none => pyTitle (pyReplaceChar stem '-' " "))
      (match b.dcCreator with
       | some a => a
       | none => "Unknown") 300 450, ?_, ?_, ?_, ?_⟩
  · simp [processOne, h]
  · cases drawFails <;> rfl
  · cases drawFails <;> rfl
  · simp [encodePng]

/-- C2 (amended) witness: a parseable book with no items at all. -/
theorem c2_amended_witness :
    truthy (extract_cover (.ok c7book5)) = false
    ∧ ∃ img : Img,
        processOne (fun _ => 0) (fun _ => none) false true "plain_book" (.ok c7book5)
          = some (encodePng img)
        ∧ img.width = 300 ∧ img.height = 450 ∧ encodePng img ≠ [] :=
  ⟨by decide, c2_amended (fun _ => 0) (fun _ => none) false "plain_book" c7book5 (by decide)⟩

theorem lookupG_append {α : Type} (acc : List (String × α)) (k : String) (v : α) (q : String) :
    lookupG (acc ++ [(k, v)]) q =
      match lookupG acc q with
      | some c => some c
      | none => if k = q then some v else none := by
  induction acc with
  | nil => simp [lookupG]
  | cons hd rest ih =>
    obtain ⟨k', v'⟩ := hd
    by_cases h : k' = q
    · simp [lookupG, h]
    · simp [lookupG, h, ih]

theorem runExtract_preserves (pyHash : String → Int) (decode : List Nat → Option Img)
    (dF cP : Bool) :
    ∀ (files : List (String × EpubFile)) (fs : List (String × List Nat))
      (q : String) (c : List Nat),
      lookupG fs q = some c →
      lookupG (runExtract pyHash decode dF cP fs files) q = some c := by
  intro files
  induction files with
  | nil => intro fs q c h; simpa [runExtract] using h
  | cons sf rest ih =>
    intro fs q c h
    have hstep : runExtract pyHash decode dF cP fs (sf :: rest)
        = runExtract pyHash decode dF cP (coverStep pyHash decode dF cP fs sf) rest := by
      simp [runExtract]
    rw [hstep]
    apply ih
    by_cases hex : (lookupG fs (pyLower sf.1)).isSome = true
    · simpa [coverStep, hex] using h
    · have hex' : (lookupG fs (pyLower sf.1)).isSome = false := by
        cases hB : (lookupG fs (pyLower sf.1)).isSome
        · rfl
        · exact absurd hB hex
      cases hp : processOne pyHash decode dF cP sf.1 sf.2 with
      | none => simpa [coverStep, hex', hp] using h
      | some data =>
        have hacc : coverStep pyHash decode dF cP fs sf = fs ++ [(pyLower sf.1, data)] := by
          simp [coverStep, hex', hp]
        rw [hacc, lookupG_append, h]

theorem runExtract_written (pyHash : String → Int) (decode : List Nat → Option Img)
    (dF cP : Bool) :
    ∀ (files : List (String × EpubFile)) (fs : List (String × List Nat))
      (sf : String × EpubFile), sf ∈ files →
      processOne pyHash decode dF cP sf.1 sf.2 ≠ none →
      (lookupG (runExtract pyHash decode dF cP fs files) (pyLower sf.1)).isSome = true := by
  intro files
  induction files with
  | nil => intro fs sf h; cases h
  | cons hd rest ih =>
    intro fs sf hmem hp
    have hstep : runExtract pyHash decode dF cP fs (hd :: rest)
        = runExtract pyHash decode dF cP (coverStep pyHash decode dF cP fs hd) rest := by
      simp [runExtract]
    rw [hstep]
    rcases List.mem_cons.mp hmem with heq | hrest
    · subst heq
      by_cases hex : (lookupG fs (pyLower sf.1)).isSome = true
      · obtain ⟨c, hc⟩ := Option.isSome_iff_exists.mp hex
        have hacc : coverStep pyHash decode dF cP fs sf = fs := by
          simp [coverStep, hex]
        rw [hacc, runExtract_preserves pyHash decode dF cP rest fs (pyLower sf.1) c hc]
        rfl
      · have hex' : (lookupG fs (pyLower sf.1)).isSome = false := by
          cases hB : (lookupG fs (pyLower sf.1)).isSome
          · rfl
          · exact absurd hB hex
        cases hp2 : processOne pyHash decode dF cP sf.1 sf.2 with
        | none => exact absurd hp2 hp
        | some data =>
          have hacc : coverStep pyHash decode dF cP fs sf = fs ++ [(pyLower sf.1, data)] := by
            simp [coverStep, hex', hp2]
          have hlv : lookupG (fs ++ [(pyLower sf.1, data)]) (pyLower sf.1) = some data := by
            rw [lookupG_append]
            cases hq : lookupG fs (pyLower sf.1) with
            | some c => simp [hq] at hex'
            | none => simp
          rw [hacc, runExtract_preserves pyHash decode dF cP rest _ (pyLower sf.1) data hlv]
          rfl
    · exact ih (coverStep pyHash decode dF cP fs hd) sf hrest hp

theorem runExtract_stable (pyHash : String → Int) (decode : List Nat → Option Img)
    (dF cP : Bool) :
    ∀ (files : List (String × EpubFile)) (fs : List (String × List Nat)),
      (∀ sf ∈ files, processOne pyHash decode dF cP sf.1 sf.2 ≠ none →
        (lookupG fs (pyLower sf.1)).isSome = true) →
      runExtract pyHash decode dF cP fs files = fs := by
  intro files
  induction files with
  | nil => intro fs _; simp [runExtract]
  | cons hd rest ih =>
    intro fs hall
    have hstep : runExtract pyHash decode dF cP fs (hd :: rest)
        = runExtract pyHash decode dF cP (coverStep pyHash decode dF cP fs hd) rest := by
      simp [runExtract]
    rw [hstep]
    have hfs : coverStep pyHash decode dF cP fs hd = fs := by
      by_cases hex : (lookupG fs (pyLower hd.1)).isSome = true
      · simp [coverStep, hex]
      · have hex' : (lookupG fs (pyLower hd.1)).isSome = false := by
          cases hB : (lookupG fs (pyLower hd.1)).isSome
          · rfl
          · exact absurd hB hex
        cases hp : processOne pyHash decode dF cP hd.1 hd.2 with
        | none => simp [coverStep, hex', hp]
        | some data =>
          exact absurd
            (hall hd (List.mem_cons_self _ _) (by simp [hp]))
            hex
    rw [hfs]
    exact ih fs (fun sf hmem hp => hall sf (List.mem_cons_of_mem _ hmem) hp)

/-- C9: the extractor is idempotent by skip.  First conjunct: any file already
present in the output directory is left exactly as it is by a run (never
overwritten or modified).  Second conjunct: running the extractor a second
time over the same inputs leaves the output directory unchanged (nothing is
modified or duplicated). -/
theorem c9_idempotent_skip (pyHash : String → Int) (decode : List Nat → Option Img)
    (dF cP : Bool) (fs : List (String × List Nat)) (files : List (String × EpubFile)) :
    (∀ q c, lookupG fs q = some c →
      lookupG (runExtract pyHash decode dF cP fs files) q = some c)
    ∧ runExtract pyHash decode dF cP (runExtract pyHash decode dF cP fs files) files
        = runExtract pyHash decode dF cP fs files := by
  constructor
  · intro q c h
    exact runExtract_preserves pyHash decode dF cP files fs q c h
  · apply runExtract_stable
    intro sf hmem hp
    exact runExtract_written pyHash decode dF cP files fs sf hmem hp

/-- Demo output directory for the C9 witness. -/
def demoFs : List (String × List Nat) := [("book", [9, 9])]

/-- Demo EPUB list for the C9 witness. -/
def demoFiles : List (String × EpubFile) := [("Book A", EpubFile.corrupt)]

/-- C9 witness: `c9_idempotent_skip` at a concrete directory state. -/
theorem c9_idempotent_skip_witness :
    lookupG (runExtract (fun _ => 0) (fun _ => none) false true demoFs demoFiles) "book"
      = some [9, 9]
    ∧ runExtract (fun _ => 0) (fun _ => none) false true
        (runExtract (fun _ => 0) (fun _ => none) false true demoFs demoFiles) demoFiles
      = runExtract (fun _ => 0) (fun _ => none) false true demoFs demoFiles :=
  ⟨(c9_idempotent_skip (fun _ => 0) (fun _ => none) false true demoFs demoFiles).1
      "book" [9, 9] (by decide),
   (c9_idempotent_skip (fun _ => 0) (fun _ => none) false true demoFs demoFiles).2⟩

/-- C1: counterexample.  With the input directory present but containing no
EPUB files, the cover extractor's `main` returns 0 (its `extract_all_covers`
prints an error and returns early, but `main` ignores that and returns 0),
contradicting the claimed exit code 1 for both tools. -/
theorem c1_counterexample :
    (extract_covers_main true (fun _ => 0) (fun _ => none) false false [] []).1 = 0
    ∧ (extract_covers_main true (fun _ => 0) (fun _ => none) false false [] []).1 ≠ 1 := by
  decide

/-- C1 (amended): both tools exit 1 when the input directory is missing; the
catalog generator additionally exits 1 when no EPUB files are found; the
cover extractor exits 0 whenever the directory exists, even with no EPUBs;
all other runs exit 0. -/
theorem c1_amended (dirExists : Bool) (pyHash : String → Int)
    (decode : List Nat → Option Img) (dF nP : Bool)
    (fs : List (String × List Nat)) (files : List (String × EpubFile))
    (today firebasePath : String) (cfiles : List CatalogInput) :
    ((extract_covers_main dirExists pyHash decode dF nP fs files).1
        = if dirExists then 0 else 1)
    ∧ (generate_catalog_main dirExists today firebasePath cfiles
        = if dirExists = false ∨ cfiles = [] then 1 else 0) := by
  constructor
  · cases dirExists <;> simp [extract_covers_main]
  · cases dirExists
    · simp [generate_catalog_main]
    · cases cfiles with
      | nil => simp [generate_catalog_main, generate_catalog]
      | cons f rest => simp [generate_catalog_main, generate_catalog]
